import Mathlib

/-!
Shallow embedding of the `sdk_types` crate (UTXO-sidechain validation and
ledger core) and verification of its specified properties.

The crate's source files belong to several coexisting variants of the same
design; each variant is embedded in its own namespace:

* `TypesA`  — `src/types.rs` (non-generic `Transaction`, SHA-256 content hash);
* `SM`      — `src/state_machine.rs` (ledger state machine; the value types it
  consumes are absent from the crate and are modelled from the spec);
* `Val`     — `src/validator.rs` (pure validator over resolved `spent_utxos`);
* `Dalek`   — `src/dalek_authorization.rs` (batch signature verification).

Machine integers (`u64`, `u32`) are modelled as `Nat` with explicit
`% 2 ^ 64` wrapping exactly where Rust release-profile arithmetic wraps.
External cryptographic primitives (SHA-256 / BLAKE2b digests, Ed25519
verification) are parameters of the embedded functions: every theorem below
holds for all instantiations, and witnesses instantiate them concretely.
-/

/-- The `u64` modulus. -/
def U64MOD : Nat := 2 ^ 64

/-- Wrapping `u64` addition (Rust `+` on `u64`, release profile). -/
def wadd (a b : Nat) : Nat := (a + b) % U64MOD

/-- Wrapping `u64` sum of a list, folded left like Rust `Iterator::sum`. -/
def wsum (l : List Nat) : Nat := l.foldl wadd 0

/-- Wrapping `u64` subtraction (Rust `-` on `u64`, release profile). -/
def wsub (a b : Nat) : Nat := (a + U64MOD - b) % U64MOD

/-- `Option<u64>` sum as produced by Rust `Iterator::sum::<Option<u64>>()`:
`none` if any element is `none`, otherwise the wrapping sum of the values. -/
def optSum : List (Option Nat) → Option Nat
  | [] => some 0
  | none :: _ => none
  | some v :: rest =>
    match optSum rest with
    | none => none
    | some acc => some (wadd v acc)

/-- `Except.isOk`-style test (`Result::is_err` negated). -/
def exceptIsOk {ε α : Type} : Except ε α → Bool
  | .ok _ => true
  | .error _ => false

namespace TypesA

/-- 32-byte hash (`src/types.rs`: `pub type Hash = [u8; SHA256_LENGTH]`),
modelled as its byte list. -/
abbrev Hash := List Nat

/-- `Txid` newtype over `Hash`, modelled transparently. -/
abbrev Txid := List Nat

/-- `Address(pub Hash)`: the 32-byte digest of a public key, modelled as its
byte list. -/
abbrev Address := List Nat

/-- `OutPoint` tagged union (`src/types.rs` lines 134-140).  The
`Deposit(bitcoin::OutPoint)` payload is the main-chain txid (32 bytes) plus
`vout`. -/
inductive OutPoint where
  | Regular (txid : Txid) (vout : Nat)
  | Coinbase (merkle_root : List Nat) (vout : Nat)
  | Deposit (main_txid : List Nat) (main_vout : Nat)
deriving DecidableEq, Repr

/-- `Authorization { public_key, signature }` (`src/types.rs` lines 142-146).
The Ed25519 public key and signature are external `ed25519_dalek` values,
modelled as opaque numbers (their 32/64-byte encodings are recovered during
serialization). -/
structure Authorization where
  public_key : Nat
  signature : Nat
deriving DecidableEq, Repr

/-- `Output` tagged union (`src/types.rs` lines 165-177).  The
`main_address : bitcoin::Address` field of `Withdrawal` is an external type,
modelled as its serialized byte string. -/
inductive Output where
  | Regular (address : Address) (value : Nat)
  | Withdrawal (value : Nat) (main_fee : Nat) (side_address : Address)
      (main_address : List Nat)
deriving DecidableEq, Repr

/-- `Output::get_address` (`src/types.rs` lines 186-191). -/
def Output.get_address : Output → Address
  | .Regular address _ => address
  | .Withdrawal _ _ side_address _ => side_address

/-- `Output::get_value` (`src/types.rs` lines 192-197). -/
def Output.get_value : Output → Nat
  | .Regular _ value => value
  | .Withdrawal value _ _ _ => value

/-- `Transaction { inputs, authorizations, outputs }`
(`src/types.rs` lines 200-205; the field order is the declaration order,
which fixes the serialization layout). -/
structure Transaction where
  inputs : List OutPoint
  authorizations : List Authorization
  outputs : List Output
deriving DecidableEq, Repr

/-! ### Canonical serialization

`hash<T: Serialize>` (`src/types.rs` lines 390-396) digests the `bincode`
serialization of a value.  `bincode::serialize` uses the legacy
configuration: fixed-width little-endian integers, `u64` length prefixes for
sequences, `u32` tags for enum variants, fixed arrays as raw bytes. -/

/-- Little-endian `u32` byte encoding. -/
def u32le (n : Nat) : List Nat :=
  [n % 256, n / 256 % 256, n / 256 ^ 2 % 256, n / 256 ^ 3 % 256]

/-- Little-endian `u64` byte encoding. -/
def u64le (n : Nat) : List Nat :=
  [n % 256, n / 256 % 256, n / 256 ^ 2 % 256, n / 256 ^ 3 % 256,
   n / 256 ^ 4 % 256, n / 256 ^ 5 % 256, n / 256 ^ 6 % 256, n / 256 ^ 7 % 256]

/-- 32-byte little-endian encoding of an opaque 32-byte value modelled as a
number (used for external key material). -/
def bytes32 (n : Nat) : List Nat :=
  (List.range 32).map fun i => n / 256 ^ i % 256

/-- 64-byte little-endian encoding of an opaque 64-byte value modelled as a
number (used for Ed25519 signatures). -/
def bytes64 (n : Nat) : List Nat :=
  (List.range 64).map fun i => n / 256 ^ i % 256

/-- `bincode` sequence encoding: `u64` length prefix followed by the
serialized elements. -/
def serSeq {α : Type} (ser : α → List Nat) (xs : List α) : List Nat :=
  u64le xs.length ++ (xs.map ser).flatten

/-- `bincode` encoding of `OutPoint`: `u32` variant tag followed by the
fields (a 32-byte id serializes as its raw bytes, `vout` as `u32`). -/
def OutPoint.ser : OutPoint → List Nat
  | .Regular txid vout => u32le 0 ++ txid ++ u32le vout
  | .Coinbase merkle_root vout => u32le 1 ++ merkle_root ++ u32le vout
  | .Deposit main_txid main_vout => u32le 2 ++ main_txid ++ u32le main_vout

/-- `bincode` encoding of `Authorization`: the `ed25519_dalek` key and
signature serialize as length-prefixed byte strings of 32 and 64 bytes. -/
def Authorization.ser (a : Authorization) : List Nat :=
  u64le 32 ++ bytes32 a.public_key ++ u64le 64 ++ bytes64 a.signature

/-- `bincode` encoding of `Output`: `u32` variant tag followed by the fields
in declaration order (`bitcoin::Address` serializes as a length-prefixed
string, modelled by its byte list). -/
def Output.ser : Output → List Nat
  | .Regular address value => u32le 0 ++ address ++ u64le value
  | .Withdrawal value main_fee side_address main_address =>
      u32le 1 ++ u64le value ++ u64le main_fee ++ side_address ++
        u64le main_address.length ++ main_address

/-- `bincode` encoding of `Transaction`: the three sequence fields in
declaration order (`inputs`, `authorizations`, `outputs`). -/
def Transaction.ser (tx : Transaction) : List Nat :=
  serSeq OutPoint.ser tx.inputs ++ serSeq Authorization.ser tx.authorizations ++
    serSeq Output.ser tx.outputs

/-- `Transaction::txid` (`src/types.rs` lines 240-242): the digest of the
`bincode` serialization of the whole transaction.  `H` models the external
SHA-256 digest (`sha2` crate). -/
def Transaction.txid (H : List Nat → Hash) (tx : Transaction) : Txid :=
  H tx.ser

/-- `Transaction::without_authorizations` (`src/types.rs` lines 233-238). -/
def Transaction.without_authorizations (tx : Transaction) : Transaction :=
  { tx with authorizations := [] }

/-- Replacing the `authorizations` field (mutation of a Rust struct field). -/
def Transaction.setAuthorizations (tx : Transaction)
    (auths : List Authorization) : Transaction :=
  { tx with authorizations := auths }

/-- `Address::from(PublicKey)` (`src/types.rs` lines 116-120): the digest of
the key's 32 raw bytes. -/
def addressFromPublicKey (H : List Nat → Hash) (pk : Nat) : Address :=
  H (bytes32 pk)

/-- `Authorization::get_address` (`src/types.rs` lines 160-162). -/
def Authorization.get_address (H : List Nat → Hash) (a : Authorization) :
    Address :=
  addressFromPublicKey H a.public_key

/-- `Authorization::is_valid` (`src/types.rs` lines 156-159): Ed25519
verification of the 32-byte txid under the public key; `sigValid` models
the external `ed25519_dalek` verifier. -/
def Authorization.is_valid (sigValid : Nat → Nat → Txid → Bool)
    (a : Authorization) (txid_without_authorizations : Txid) : Bool :=
  sigValid a.public_key a.signature txid_without_authorizations

/-- Resolution of a list of outpoints through an output store
(`Transaction::get_inputs`, `src/types.rs` lines 208-213): `none` as soon
as one outpoint is absent. -/
def resolveAll (store : OutPoint → Option Output) :
    List OutPoint → Option (List Output)
  | [] => some []
  | op :: rest =>
    match store op with
    | none => none
    | some o =>
      match resolveAll store rest with
      | none => none
      | some os => some (o :: os)

/-- `Transaction::get_inputs` (`src/types.rs` lines 208-213).  The
`OutputStore` trait is absent from the crate; its single used capability
`get_output` is modelled as the function `store`. -/
def Transaction.get_inputs (store : OutPoint → Option Output)
    (tx : Transaction) : Option (List Output) :=
  resolveAll store tx.inputs

/-- `Transaction::get_fee` (`src/types.rs` lines 215-223): wrapping
difference of the wrapping value sums; no check that inputs cover
outputs (release-profile semantics; the debug profile panics instead of
wrapping, and either way no error value is produced). -/
def Transaction.get_fee (store : OutPoint → Option Output)
    (tx : Transaction) : Option Nat :=
  match tx.get_inputs store with
  | none => none
  | some inputs =>
    some (wsub (wsum (inputs.map Output.get_value))
               (wsum (tx.outputs.map Output.get_value)))

/-- The per-input loop of `Transaction::validate`
(`src/types.rs` lines 265-279), over the zip of inputs and authorizations:
spentness check, signature check, then address comparison against the
stored output. -/
def validateInputs (H : List Nat → Hash) (sigValid : Nat → Nat → Txid → Bool)
    (isSpent : OutPoint → Bool) (store : OutPoint → Option Output)
    (txidWA : Txid) : List (OutPoint × Authorization) → Except String Unit
  | [] => .ok ()
  | (outpoint, authorization) :: rest =>
    if isSpent outpoint then .error ("output is double spent")
    else if ! authorization.is_valid sigValid txidWA then
      .error ("invalid authorization")
    else
      match store outpoint with
      | some spent_output =>
        if spent_output.get_address ≠ authorization.get_address H then
          .error ("addresses don't match")
        else validateInputs H sigValid isSpent store txidWA rest
      | none => .error ("output doesn't exist")

/-- `Transaction::validate` (`src/types.rs` lines 244-281).  The `UtxoSet`
trait is absent from the crate; its single used capability `is_spent` is
modelled as the function `isSpent`. -/
def Transaction.validate (H : List Nat → Hash)
    (sigValid : Nat → Nat → Txid → Bool) (isSpent : OutPoint → Bool)
    (store : OutPoint → Option Output) (tx : Transaction) :
    Except String Unit :=
  match tx.get_inputs store with
  | none => .error ("can not get transaction inputs")
  | some inputs =>
    let value_in := wsum (inputs.map Output.get_value)
    let value_out := wsum (tx.outputs.map Output.get_value)
    if value_in < value_out then .error ("value in < value out")
    else
      let txidWA := tx.without_authorizations.txid H
      if tx.inputs.length ≠ tx.authorizations.length then
        .error ("not enough authorizations")
      else
        validateInputs H sigValid isSpent store txidWA
          (tx.inputs.zip tx.authorizations)

/-- `Body { coinbase, transactions }` (`src/types.rs` lines 317-321). -/
structure Body where
  coinbase : List Output
  transactions : List Transaction
deriving DecidableEq, Repr

/-- `Body::validate` (`src/types.rs` lines 367-387): every transaction
validates, all fees resolve, and the wrapping coinbase value sum does not
exceed the wrapping fee sum. -/
def Body.validate (H : List Nat → Hash) (sigValid : Nat → Nat → Txid → Bool)
    (isSpent : OutPoint → Bool) (store : OutPoint → Option Output)
    (b : Body) : Bool :=
  if b.transactions.all
      (fun tx => exceptIsOk (tx.validate H sigValid isSpent store)) then
    match optSum (b.transactions.map (Transaction.get_fee store)) with
    | none => false
    | some fees =>
      if wsum (b.coinbase.map Output.get_value) > fees then false else true
  else false

end TypesA

namespace SM

/-!
### `src/state_machine.rs`

This file belongs to a crate variant whose value types (`Transaction` with
`signatures` and `withdrawal_outputs` fields, `DepositOutput`,
`WithdrawalOutput`, `Output::validate`, an `OutPoint` with a `Withdrawal`
variant) are absent from the crate (`lib.rs` does not even declare the
`state_machine` module).  Those missing pieces are modelled from the spec
and from their uses in `state_machine.rs`; the state-machine logic itself is
translated directly from the source.  Hashes are opaque numbers here;
`Hash::default()` (all zero bytes) is modelled as `0`.
-/

/-- `OutPoint` as used by `src/state_machine.rs` (lines 110, 116, 172-178):
`Regular`, `Coinbase`, `Deposit` plus a `Withdrawal { txid, vout }`
variant. -/
inductive OutPoint where
  | Regular (txid : Nat) (vout : Nat)
  | Coinbase (merkle_root : Nat) (vout : Nat)
  | Deposit (main_txid : Nat) (main_vout : Nat)
  | Withdrawal (txid : Nat) (vout : Nat)
deriving DecidableEq, Repr

/-- Modelled from the spec: the regular output consumed by
`src/state_machine.rs` (field `address` read at line 173, value needed by
§4.3 accounting). -/
structure Output where
  address : Nat
  value : Nat
deriving DecidableEq, Repr

/-- Modelled from the spec: the deposit output (spec §3 lifecycle; field
`address` read at `src/state_machine.rs` line 73). -/
structure DepositOutput where
  address : Nat
  value : Nat
deriving DecidableEq, Repr

/-- Modelled from the spec: the withdrawal output (spec §3; field
`side_address` read at `src/state_machine.rs` lines 69, 177). -/
structure WithdrawalOutput where
  side_address : Nat
  value : Nat
  main_fee : Nat
deriving DecidableEq, Repr

/-- Modelled from the spec: the per-input signature record of this variant
(`signature.is_valid`, `signature.get_address` at `src/state_machine.rs`
lines 61-65). -/
structure Signature where
  public_key : Nat
  signature : Nat
deriving DecidableEq, Repr

/-- Modelled from the spec: the transaction shape consumed by
`src/state_machine.rs` (fields `inputs`, `signatures`, `outputs`,
`withdrawal_outputs` at lines 57, 105-119). -/
structure Transaction where
  inputs : List OutPoint
  signatures : List Signature
  outputs : List Output
  withdrawal_outputs : List WithdrawalOutput
deriving DecidableEq, Repr

/-- `Transaction::without_signatures` as used at `src/state_machine.rs`
line 56: the transaction with its signatures cleared. -/
def Transaction.without_signatures (tx : Transaction) : Transaction :=
  { tx with signatures := [] }

/-- The header consumed by `src/state_machine.rs` (`prev_block_hash`,
`merkle_root` at lines 87, 90; hashed at line 120). -/
structure Header where
  prev_block_hash : Nat
  prev_main_block_hash : Nat
  merkle_root : Nat
deriving DecidableEq, Repr

/-- The body consumed by `src/state_machine.rs` (`transactions` at lines 93,
102, 128; `compute_merkle_root` at line 90; the `coinbase` field is the
spec's §3 body shape). -/
structure Body where
  coinbase : List Output
  transactions : List Transaction
deriving DecidableEq, Repr

/-- The external and missing hash/signature primitives used by the state
machine, as parameters: `hashTx` models `Transaction::txid`, `hashHeader`
models `Header::hash`, `merkleOf` models `Body::compute_merkle_root`,
`sigValid pk sig msg` models Ed25519 verification of the txid message, and
`addrOfPk` models `Signature::get_address`. -/
structure Crypto where
  hashTx : Transaction → Nat
  hashHeader : Header → Nat
  merkleOf : Body → Nat
  sigValid : Nat → Nat → Nat → Bool
  addrOfPk : Nat → Nat

/-- Extensional finite-map update (`HashMap::insert`). -/
def upd {κ ν : Type} [DecidableEq κ] (m : κ → Option ν) (k : κ) (v : ν) :
    κ → Option ν :=
  fun k' => if k' = k then some v else m k'

/-- Extensional finite-map removal (`HashMap::remove`). -/
def del {κ ν : Type} [DecidableEq κ] (m : κ → Option ν) (k : κ) :
    κ → Option ν :=
  fun k' => if k' = k then none else m k'

/-- Extensional set insertion (`HashSet::insert`). -/
def setIn {κ : Type} [DecidableEq κ] (s : κ → Bool) (k : κ) : κ → Bool :=
  fun k' => if k' = k then true else s k'

/-- Extensional set removal (`HashSet::remove`). -/
def setOut {κ : Type} [DecidableEq κ] (s : κ → Bool) (k : κ) : κ → Bool :=
  fun k' => if k' = k then false else s k'

/-- Fold of `setIn` over a list of keys (a loop of `HashSet::insert`). -/
def insertAll {κ : Type} [DecidableEq κ] (s : κ → Bool) (l : List κ) :
    κ → Bool :=
  l.foldl setIn s

/-- Fold of `setOut` over a list of keys (a loop of `HashSet::remove`). -/
def removeAll {κ : Type} [DecidableEq κ] (s : κ → Bool) (l : List κ) :
    κ → Bool :=
  l.foldl setOut s

/-- Fold of `del` over a list of keys (a loop of `HashMap::remove`). -/
def delAll {κ ν : Type} [DecidableEq κ] (m : κ → Option ν) (l : List κ) :
    κ → Option ν :=
  l.foldl del m

/-- `StateMachine` (`src/state_machine.rs` lines 4-15).  Rust `HashMap`s and
`HashSet`s compare extensionally, so they are modelled as functions. -/
structure StateMachine where
  block_order : List Nat
  headers : Nat → Option Header
  bodies : Nat → Option Body
  transactions : Nat → Option Transaction
  outputs : OutPoint → Option Output
  deposit_outputs : OutPoint → Option DepositOutput
  withdrawal_outputs : OutPoint → Option WithdrawalOutput
  unspent_outpoints : OutPoint → Bool

/-- `StateMachine::new` (`src/state_machine.rs` lines 18-29). -/
def new : StateMachine where
  block_order := []
  headers := fun _ => none
  bodies := fun _ => none
  transactions := fun _ => none
  outputs := fun _ => none
  deposit_outputs := fun _ => none
  withdrawal_outputs := fun _ => none
  unspent_outpoints := fun _ => false

/-- `StateMachine::is_spent` (`src/state_machine.rs` lines 31-33). -/
def is_spent (S : StateMachine) (op : OutPoint) : Bool :=
  ! S.unspent_outpoints op

/-- `StateMachine::add_deposits` (`src/state_machine.rs` lines 35-43): tag
each main-chain outpoint as `OutPoint::Deposit`, extend the unspent set with
the keys and the deposit-output store with the entries. -/
def add_deposits (S : StateMachine)
    (deposit_outputs : List ((Nat × Nat) × DepositOutput)) : StateMachine :=
  let keyed := deposit_outputs.map fun p => (OutPoint.Deposit p.1.1 p.1.2, p.2)
  { S with
    unspent_outpoints := insertAll S.unspent_outpoints (keyed.map Prod.fst)
    deposit_outputs := keyed.foldl (fun m p => upd m p.1 p.2) S.deposit_outputs }

/-- `StateMachine::get_inputs` (`src/state_machine.rs` lines 183-206): the
transaction's inputs resolved through each of the three stores in turn
(inputs absent from a store are silently filtered out). -/
def get_inputs (S : StateMachine) (tx : Transaction) :
    List Output × List DepositOutput × List WithdrawalOutput :=
  (tx.inputs.filterMap S.outputs,
   tx.inputs.filterMap S.deposit_outputs,
   tx.inputs.filterMap S.withdrawal_outputs)

/-- Modelled from the spec: `Output::validate` (absent from the crate;
called at `src/state_machine.rs` lines 47-53, where a `true` result makes
`validate_transaction` fail with "value out > value in").  Per spec §4.3
step 4 it reports whether the wrapping sum of produced values exceeds the
wrapping sum of consumed values, over all output kinds. -/
def Output.validate (inputs : List Output) (deposit_inputs : List DepositOutput)
    (withdrawal_inputs : List WithdrawalOutput) (outputs : List Output)
    (withdrawal_outputs : List WithdrawalOutput) : Bool :=
  let value_in := wsum (inputs.map Output.value ++
    deposit_inputs.map DepositOutput.value ++
    withdrawal_inputs.map WithdrawalOutput.value)
  let value_out := wsum (outputs.map Output.value ++
    withdrawal_outputs.map WithdrawalOutput.value)
  value_out > value_in

/-- The value-conservation test performed first by
`StateMachine::validate_transaction` (`src/state_machine.rs` lines 46-54). -/
def valueCheck (S : StateMachine) (tx : Transaction) : Bool :=
  let (inputs, deposit_inputs, withdrawal_inputs) := get_inputs S tx
  Output.validate inputs deposit_inputs withdrawal_inputs tx.outputs
    tx.withdrawal_outputs

/-- The per-input loop of `StateMachine::validate_transaction`
(`src/state_machine.rs` lines 57-79) over the zip of inputs and signatures:
spentness first, then the signature, then the address, resolving through
`outputs`, `withdrawal_outputs`, `deposit_outputs` in that order. -/
def validateInputsSM (c : Crypto) (S : StateMachine) (txidWS : Nat) :
    List (OutPoint × Signature) → Except String Unit
  | [] => .ok ()
  | (outpoint, signature) :: rest =>
    if is_spent S outpoint then .error ("output spent")
    else if ! c.sigValid signature.public_key signature.signature txidWS then
      .error ("wrong signature")
    else
      match S.outputs outpoint with
      | some spent_output =>
        if spent_output.address ≠ c.addrOfPk signature.public_key then
          .error ("addresses don't match")
        else validateInputsSM c S txidWS rest
      | none =>
        match S.withdrawal_outputs outpoint with
        | some spent_output =>
          if spent_output.side_address ≠ c.addrOfPk signature.public_key then
            .error ("addresses don't match")
          else validateInputsSM c S txidWS rest
        | none =>
          match S.deposit_outputs outpoint with
          | some spent_output =>
            if spent_output.address ≠ c.addrOfPk signature.public_key then
              .error ("addresses don't match")
            else validateInputsSM c S txidWS rest
          | none => .error ("output doesn't exist")

/-- `StateMachine::validate_transaction` (`src/state_machine.rs`
lines 45-81). -/
def validate_transaction (c : Crypto) (S : StateMachine) (tx : Transaction) :
    Except String Unit :=
  if valueCheck S tx then .error ("value out > value in")
  else
    let txidWS := c.hashTx tx.without_signatures
    validateInputsSM c S txidWS (tx.inputs.zip tx.signatures)

/-- `StateMachine::get_best_block_hash` (`src/state_machine.rs`
lines 153-155). -/
def get_best_block_hash (S : StateMachine) : Option Nat :=
  S.block_order.getLast?

/-- `StateMachine::validate_block` (`src/state_machine.rs` lines 83-99):
previous-hash check against the best block (or the zero hash), Merkle-root
check, then `validate_transaction` for every transaction. -/
def validate_block (c : Crypto) (S : StateMachine) (header : Header)
    (body : Body) : Bool :=
  let best_block := (get_best_block_hash S).getD 0
  if header.prev_block_hash ≠ best_block then false
  else if header.merkle_root ≠ c.merkleOf body then false
  else body.transactions.all fun tx =>
    exceptIsOk (validate_transaction c S tx)

/-- The body of the per-transaction loop of `StateMachine::connect_block`
(`src/state_machine.rs` lines 102-124).  Note that the source records the
header, the body and the block-order entry *inside* this loop (lines
120-123), so they are repeated for every transaction of the body and never
recorded for an empty body. -/
def connectTx (c : Crypto) (header : Header) (body : Body)
    (S : StateMachine) (tx : Transaction) : StateMachine :=
  let txid := c.hashTx tx
  let S1 := { S with
    transactions := upd S.transactions txid tx
    unspent_outpoints := removeAll S.unspent_outpoints tx.inputs }
  let S2 := tx.outputs.enum.foldl (fun T p =>
    { T with
      outputs := upd T.outputs (OutPoint.Regular txid p.1) p.2
      unspent_outpoints := setIn T.unspent_outpoints (OutPoint.Regular txid p.1) }) S1
  let S3 := tx.withdrawal_outputs.enum.foldl (fun T p =>
    { T with
      withdrawal_outputs := upd T.withdrawal_outputs (OutPoint.Withdrawal txid p.1) p.2
      unspent_outpoints := setIn T.unspent_outpoints (OutPoint.Withdrawal txid p.1) }) S2
  let block_hash := c.hashHeader header
  { S3 with
    headers := upd S3.headers block_hash header
    bodies := upd S3.bodies block_hash body
    block_order := S3.block_order ++ [block_hash] }

/-- `StateMachine::connect_block` (`src/state_machine.rs` lines 101-125). -/
def connect_block (c : Crypto) (S : StateMachine) (header : Header)
    (body : Body) : StateMachine :=
  body.transactions.foldl (connectTx c header body) S

/-- The body of the per-transaction loop of `StateMachine::disconnect_block`
(`src/state_machine.rs` lines 128-146): reinsert the inputs into the
unspent set, remove the transaction's produced regular and withdrawal
outpoints from the stores and the unspent set, drop the transaction
record.  The source interleaves the removals per `vout`; the grouping below
is extensionally identical because the fields are disjoint. -/
def disconnectTx (c : Crypto) (S : StateMachine) (tx : Transaction) :
    StateMachine :=
  let txid := c.hashTx tx
  let regs := (List.range tx.outputs.length).map (OutPoint.Regular txid)
  let wdrs := (List.range tx.withdrawal_outputs.length).map
    (OutPoint.Withdrawal txid)
  { S with
    unspent_outpoints :=
      removeAll (removeAll (insertAll S.unspent_outpoints tx.inputs) regs) wdrs
    outputs := delAll S.outputs regs
    withdrawal_outputs := delAll S.withdrawal_outputs wdrs
    transactions := del S.transactions txid }

/-- `StateMachine::disconnect_block` (`src/state_machine.rs` lines 127-151):
the per-transaction loop in body order, then removal of the body and header
records and a single pop of `block_order`. -/
def disconnect_block (c : Crypto) (S : StateMachine) (header : Header)
    (body : Body) : StateMachine :=
  let S1 := body.transactions.foldl (disconnectTx c) S
  let block_hash := c.hashHeader header
  { S1 with
    bodies := del S1.bodies block_hash
    headers := del S1.headers block_hash
    block_order := S1.block_order.dropLast }

end SM

namespace Val

/-!
### `src/validator.rs` and `src/dalek_authorization.rs`

These files are generic over an application content type `C` with a
`get_value` capability; the generic `Output<C>` / `Transaction<..>` /
`Body<C>` definitions they consume are absent from the crate and are
modelled from the spec (§3, §4.5) and the crate's test module.  The content
payload is modelled by the two capabilities the spec grants it
(`get_value`, owning address). -/

/-- `Authorization { public_key, signature }` as consumed by
`src/validator.rs` and declared in `src/dalek_authorization.rs`
lines 6-10. -/
structure Authorization where
  public_key : Nat
  signature : Nat
deriving DecidableEq, Repr

/-- Modelled from the spec: the generic `Output<C>` (spec §3): `Regular`,
`Withdrawal`, and the extension variant `Custom` exposing `get_value` and an
owning address. -/
inductive Output where
  | Regular (address : Nat) (value : Nat)
  | Withdrawal (value : Nat) (main_fee : Nat) (side_address : Nat)
      (main_address : List Nat)
  | Custom (address : Nat) (value : Nat)
deriving DecidableEq, Repr

/-- `Output::get_value` per spec §3 (`GetValue` capability). -/
def Output.get_value : Output → Nat
  | .Regular _ value => value
  | .Withdrawal value _ _ _ => value
  | .Custom _ value => value

/-- `Output::get_address` per spec §3. -/
def Output.get_address : Output → Nat
  | .Regular address _ => address
  | .Withdrawal _ _ side_address _ => side_address
  | .Custom address _ => address

/-- Modelled from the spec: the generic transaction consumed by
`src/validator.rs` and `src/dalek_authorization.rs`
(spec §3: `{ inputs, outputs, authorizations }`). -/
structure Transaction where
  inputs : List TypesA.OutPoint
  authorizations : List Authorization
  outputs : List Output
deriving DecidableEq, Repr

/-- The transaction with `authorizations` cleared
(`Transaction { authorizations: vec![], ..transaction.clone() }` at
`src/validator.rs` lines 74-77 and `src/dalek_authorization.rs`
lines 31-34). -/
def Transaction.clearAuths (tx : Transaction) : Transaction :=
  { tx with authorizations := [] }

/-- Modelled from the spec: the generic `Body<C>` (spec §3,
`Body::new(transactions, coinbase)` in the test module). -/
structure Body where
  coinbase : List Output
  transactions : List Transaction
deriving DecidableEq, Repr

/-- Modelled from the spec: `Body::get_coinbase_value` (absent from the
crate; called at `src/validator.rs` line 59).  Per spec §4.3 step 3 it is
the summed coinbase output value (wrapping, like every `u64` sum in the
crate). -/
def Body.get_coinbase_value (b : Body) : Nat :=
  wsum (b.coinbase.map Output.get_value)

/-- `RegularValidator::regular_validate_transaction` (`src/validator.rs`
lines 14-40): address check over the zip of the resolved `spent_utxos` with
the authorizations (the zip silently truncates at the shorter list), then
the accounting check; returns the fee.  `addrOfPk` models
`Address::from(public_key)`. -/
def regular_validate_transaction (addrOfPk : Nat → Nat)
    (spent_utxos : List Output) (tx : Transaction) : Except String Nat :=
  if ! (spent_utxos.zip tx.authorizations).all
      (fun p => addrOfPk p.2.public_key == p.1.get_address) then
    .error ("authorization address does not match spent utxo address")
  else
    let value_in := wsum (spent_utxos.map Output.get_value)
    let value_out := wsum (tx.outputs.map Output.get_value)
    if value_in < value_out then .error ("value in < value out")
    else .ok (value_in - value_out)

/-- `Validator::validate_transaction` (`src/validator.rs` lines 45-52): the
custom hook (`cval` models the `CustomValidator` implementation) runs
before the regular rules. -/
def validate_transaction (cval : List Output → Transaction → Except String Unit)
    (addrOfPk : Nat → Nat) (spent_utxos : List Output) (tx : Transaction) :
    Except String Nat :=
  match cval spent_utxos tx with
  | .error e => .error e
  | .ok _ => regular_validate_transaction addrOfPk spent_utxos tx

/-- The fee-accumulation loop of `Validator::validate_body`
(`src/validator.rs` lines 55-58): `fees += validate_transaction(..)?` with
wrapping `u64` addition (release profile; the debug profile panics on
overflow, and either way no `FeeOverflow` error exists). -/
def sumFees (cval : List Output → Transaction → Except String Unit)
    (addrOfPk : Nat → Nat) : List (Transaction × List Output) → Nat →
    Except String Nat
  | [], fees => .ok fees
  | (tx, spent_utxos) :: rest, fees =>
    match validate_transaction cval addrOfPk spent_utxos tx with
    | .error e => .error e
    | .ok fee => sumFees cval addrOfPk rest (wadd fees fee)

/-- `Validator::validate_body` (`src/validator.rs` lines 54-63): accumulate
the fees over the transactions zipped with their resolved `spent_utxos`,
then reject a coinbase value exceeding the fees. -/
def validate_body (cval : List Output → Transaction → Except String Unit)
    (addrOfPk : Nat → Nat) (spent_utxos : List (List Output)) (body : Body) :
    Except String Nat :=
  match sumFees cval addrOfPk (body.transactions.zip spent_utxos) 0 with
  | .error e => .error e
  | .ok fees =>
    if body.get_coinbase_value > fees then .error ("coinbase value > fees")
    else .ok fees

/-- The inner loop of `AuthorizationValidator::verify_signatures`
(`src/validator.rs` lines 79-84): verify each authorization of the given
list against the message. -/
def checkAuths (sigValid : Nat → Nat → List Nat → Bool) (message : List Nat) :
    List Authorization → Except Unit Unit
  | [] => .ok ()
  | a :: rest =>
    if sigValid a.public_key a.signature message then
      checkAuths sigValid message rest
    else .error ()

/-- The per-transaction step of `AuthorizationValidator::verify_signatures`
(`src/validator.rs` lines 73-85): the source rebinds `transaction` to the
clone with `authorizations` cleared and then iterates the authorizations of
that *cleared* clone, so the loop runs over an empty list.  `H` models the
transaction digest (`hash` over the `bincode` serialization);
`SignatureError` is modelled as `Unit`. -/
def avVerifyTx (sigValid : Nat → Nat → List Nat → Bool)
    (H : Transaction → List Nat) (tx : Transaction) : Except Unit Unit :=
  let transaction := tx.clearAuths
  let message := H transaction
  checkAuths sigValid message transaction.authorizations

/-- `AuthorizationValidator::verify_signatures` (`src/validator.rs`
lines 69-87): the per-transaction loop with early error propagation. -/
def authorizationValidatorVerify (sigValid : Nat → Nat → List Nat → Bool)
    (H : Transaction → List Nat) : List Transaction → Except Unit Unit
  | [] => .ok ()
  | tx :: rest =>
    match avVerifyTx sigValid H tx with
    | .error e => .error e
    | .ok _ => authorizationValidatorVerify sigValid H rest

end Val

namespace Dalek

/-- Modelled from the spec: `ed25519_dalek::verify_batch` (external crate).
Spec §6: "Batch verification must be semantically equivalent to
per-signature verification", so it succeeds exactly when every
(message, signature, public key) triple verifies individually. -/
def verify_batch (sigValid : Nat → Nat → List Nat → Bool)
    (messages : List (List Nat)) (signatures : List Nat)
    (public_keys : List Nat) : Bool :=
  (messages.zip (signatures.zip public_keys)).all fun t =>
    sigValid t.2.2 t.2.1 t.1

/-- The three parallel sequences assembled by `verify_signatures`
(`src/dalek_authorization.rs` lines 26-41): for every transaction, the
digest of the transaction with `authorizations` cleared is repeated once
per authorization, next to that authorization's signature and public
key. -/
def batchTriples (H : Val.Transaction → List Nat)
    (transactions : List Val.Transaction) : List (List Nat × Nat × Nat) :=
  transactions.flatMap fun tx =>
    tx.authorizations.map fun a =>
      (H tx.clearAuths, a.signature, a.public_key)

/-- `verify_signatures` (`src/dalek_authorization.rs` lines 18-50): build
the parallel message/signature/public-key sequences and run one batched
verification pass. -/
def verify_signatures (sigValid : Nat → Nat → List Nat → Bool)
    (H : Val.Transaction → List Nat) (transactions : List Val.Transaction) :
    Except Unit Unit :=
  let triples := batchTriples H transactions
  if verify_batch sigValid (triples.map Prod.fst)
      (triples.map fun t => t.2.1) (triples.map fun t => t.2.2) then
    .ok ()
  else .error ()

end Dalek

/-!
## Verification fixtures

Concrete instantiations of the external-primitive parameters and concrete
inputs used by the closed theorems below.  The instantiations are
legitimate because every parametric theorem holds for all instantiations of
the external primitives.
-/

instance {ε α : Type} [DecidableEq ε] [DecidableEq α] :
    DecidableEq (Except ε α) := fun x y =>
  match x, y with
  | .ok a, .ok b =>
    if h : a = b then .isTrue (by rw [h]) else .isFalse (by simp [h])
  | .error a, .error b =>
    if h : a = b then .isTrue (by rw [h]) else .isFalse (by simp [h])
  | .ok _, .error _ => .isFalse (by simp)
  | .error _, .ok _ => .isFalse (by simp)

/-- A concrete digest instantiation: the identity on byte lists (any
function distinguishing the serializations witnesses the same facts). -/
def idH : List Nat → List Nat := id

/-- A concrete signature-verifier instantiation that accepts everything. -/
def sigTrue : Nat → Nat → List Nat → Bool := fun _ _ _ => true

/-- A concrete signature-verifier instantiation that rejects everything. -/
def sigFalse : Nat → Nat → List Nat → Bool := fun _ _ _ => false

/-- Concrete output store for the `get_fee` witness: one outpoint worth 7. -/
def store10 : TypesA.OutPoint → Option TypesA.Output :=
  fun o => if o = .Regular (TypesA.bytes32 3) 0 then
    some (.Regular (TypesA.bytes32 1) 7) else none

/-- Concrete transaction for the `get_fee` witness: spends the stored
outpoint, produces value 2. -/
def tx10 : TypesA.Transaction :=
  ⟨[.Regular (TypesA.bytes32 3) 0], [], [.Regular (TypesA.bytes32 1) 2]⟩

/-- A transaction with one authorization and no inputs or outputs. -/
def txC2 : TypesA.Transaction := ⟨[], [⟨1, 2⟩], []⟩

/-- An outpoint present in the concrete stores below. -/
def opA : TypesA.OutPoint := .Regular (List.replicate 32 0) 0

/-- An authorization by public key 1 (valid under `sigTrue`). -/
def authA : TypesA.Authorization := ⟨1, 0⟩

/-- A store holding a single output of value 10 owned by key 1's address
(under the `idH` digest). -/
def storeA : TypesA.OutPoint → Option TypesA.Output :=
  fun o => if o = opA then some (.Regular (TypesA.bytes32 1) 10) else none

/-- A transaction naming the same outpoint twice and spending twice its
value. -/
def txDup : TypesA.Transaction :=
  ⟨[opA, opA], [authA, authA], [.Regular (TypesA.bytes32 1) 20]⟩

/-- First of two transactions spending the same pre-existing outpoint. -/
def tx31 : TypesA.Transaction := ⟨[opA], [authA], [.Regular (TypesA.bytes32 1) 10]⟩

/-- Second of two transactions spending the same pre-existing outpoint
(distinct outputs, hence a distinct transaction). -/
def tx32 : TypesA.Transaction := ⟨[opA], [authA], [.Regular (TypesA.bytes32 1) 9]⟩

/-- A body whose two transactions both spend `opA`. -/
def body3 : TypesA.Body := ⟨[], [tx31, tx32]⟩

/-- A transaction whose two output values sum to exactly `2 ^ 64`, against
an input of value 1. -/
def txOv : TypesA.Transaction :=
  ⟨[opA], [authA],
   [.Regular (TypesA.bytes32 1) (2 ^ 63), .Regular (TypesA.bytes32 1) (2 ^ 63)]⟩

/-- The store backing `txOv`: the spent outpoint is worth 1. -/
def storeOv : TypesA.OutPoint → Option TypesA.Output :=
  fun o => if o = opA then some (.Regular (TypesA.bytes32 1) 1) else none

/-- A custom-rule hook that accepts everything (as the crate's test module
instantiates it). -/
def cvalOk : List Val.Output → Val.Transaction → Except String Unit :=
  fun _ _ => .ok ()

/-- A transaction with no inputs, authorizations or outputs: its fee is the
whole value of its resolved `spent_utxos`. -/
def txF : Val.Transaction := ⟨[], [], []⟩

/-- A resolved spent output of value `2 ^ 63`. -/
def uIn : Val.Output := .Regular 0 (2 ^ 63)

/-- A body of two fee-`2 ^ 63` transactions: the fee accumulation wraps to
0. -/
def bodyOv : Val.Body := ⟨[], [txF, txF]⟩

/-- Concrete crypto instantiation for the state machine: constant digests
7 / 9 / 5 and an always-true verifier. -/
def cT : SM.Crypto :=
  { hashTx := fun _ => 7, hashHeader := fun _ => 9, merkleOf := fun _ => 5,
    sigValid := fun _ _ _ => true, addrOfPk := fun _ => 0 }

/-- A state with one committed block hash. -/
def S0 : SM.StateMachine := { SM.new with block_order := [1] }

/-- A transaction with no inputs and one zero-value output (valid in any
state under `cT`). -/
def txP : SM.Transaction := ⟨[], [], [⟨0, 0⟩], []⟩

/-- A two-transaction body. -/
def b2T : SM.Body := ⟨[], [txP, txP]⟩

/-- A header extending `S0` and committing (under `cT`) to `b2T`. -/
def h2T : SM.Header := ⟨1, 0, 5⟩

/-- The empty body. -/
def bE : SM.Body := ⟨[], []⟩

/-- A header extending `S0` and committing (under `cT`) to `bE`. -/
def hE : SM.Header := ⟨1, 0, 5⟩

/-- A body with a value-5 coinbase output and no transactions (hence fees
0). -/
def b5 : SM.Body := ⟨[⟨0, 5⟩], []⟩

/-- A header extending the empty state and committing (under `cT`) to
`b5`. -/
def h5 : SM.Header := ⟨0, 0, 5⟩

/-- An outpoint that never existed in any store of the empty state. -/
def op7 : SM.OutPoint := .Regular 1 0

/-- A transaction spending the never-created `op7`, with one signature. -/
def tx7 : SM.Transaction := ⟨[op7], [⟨0, 0⟩], [], []⟩

/-- A transaction spending a never-created coinbase outpoint, with one
signature (witness input). -/
def tx7w : SM.Transaction := ⟨[.Coinbase 5 1], [⟨0, 0⟩], [], []⟩

/-- The empty state after ingesting one main-chain deposit. -/
def dep9 : SM.StateMachine := SM.add_deposits SM.new [((1, 2), ⟨0, 100⟩)]

/-- A constant digest instantiation for batch-verification inputs. -/
def HconstV : Val.Transaction → List Nat := fun _ => []

/-- A transaction carrying a single authorization (invalid under
`sigFalse`). -/
def txAuth : Val.Transaction := ⟨[], [⟨1, 2⟩], []⟩

/-- A transaction of fee 1 given `spent8`. -/
def tx8 : Val.Transaction := ⟨[], [], []⟩

/-- A body whose coinbase value equals its total fee. -/
def body8 : Val.Body := ⟨[.Regular 0 1], [tx8]⟩

/-- The resolved spent outputs backing `body8`: one input of value 1. -/
def spent8 : List (List Val.Output) := [[.Regular 5 1]]

/-- The union of the three output stores maintained by the state machine
(spec §9 notes the heterogeneous maps are a source artifact of the single
`outputs` map of the spec's data model). -/
def SM.inStores (S : SM.StateMachine) (op : SM.OutPoint) : Bool :=
  (S.outputs op).isSome || (S.deposit_outputs op).isSome ||
    (S.withdrawal_outputs op).isSome

/-- The invariant: every unspent outpoint resolves in one of the three
output stores. -/
def SM.unspentSubStores (S : SM.StateMachine) : Prop :=
  ∀ op, S.unspent_outpoints op = true → SM.inStores S op = true

/-- The outpoints produced by a transaction on connect (and removed on
disconnect): its regular and withdrawal outpoints. -/
def SM.producedOf (c : SM.Crypto) (tx : SM.Transaction) : List SM.OutPoint :=
  (List.range tx.outputs.length).map (SM.OutPoint.Regular (c.hashTx tx)) ++
    (List.range tx.withdrawal_outputs.length).map
      (SM.OutPoint.Withdrawal (c.hashTx tx))

/-- All outpoints produced by a body's transactions. -/
def SM.producedOutpoints (c : SM.Crypto) (b : SM.Body) : List SM.OutPoint :=
  b.transactions.flatMap (SM.producedOf c)

/-- The states reachable from the empty state machine by the ledger
mutations of `src/state_machine.rs`: deposit ingestion, block connection,
and disconnection of a block whose transaction inputs all resolve in the
output stores and are distinct from the block's own produced outpoints. -/
inductive SM.Reach (c : SM.Crypto) : SM.StateMachine → Prop where
  | init : SM.Reach c SM.new
  | deposits {S : SM.StateMachine} (ds : List ((Nat × Nat) × SM.DepositOutput)) :
      SM.Reach c S → SM.Reach c (SM.add_deposits S ds)
  | connect {S : SM.StateMachine} (header : SM.Header) (body : SM.Body) :
      SM.Reach c S → SM.Reach c (SM.connect_block c S header body)
  | disconnect {S : SM.StateMachine} (header : SM.Header) (body : SM.Body) :
      SM.Reach c S →
      (∀ tx ∈ body.transactions, ∀ op ∈ tx.inputs,
        SM.inStores S op = true ∧ op ∉ SM.producedOutpoints c body) →
      SM.Reach c (SM.disconnect_block c S header body)

/-!
## Supporting lemmas
-/

lemma exceptIsOk_iff {ε : Type} (e : Except ε Unit) :
    exceptIsOk e = true ↔ e = .ok () := by
  cases e with
  | ok u => cases u; simp [exceptIsOk]
  | error _ => simp [exceptIsOk]

lemma foldl_wadd_eq (l : List Nat) (a : Nat) :
    l.foldl wadd (a % U64MOD) = (a + l.sum) % U64MOD := by
  induction l generalizing a with
  | nil => simp
  | cons x xs ih =>
    have h : wadd (a % U64MOD) x = (a + x) % U64MOD := by
      simp [wadd, Nat.mod_add_mod]
    rw [List.foldl_cons, h, ih, List.sum_cons]
    ring_nf

lemma wsum_eq (l : List Nat) : wsum l = l.sum % U64MOD := by
  have h := foldl_wadd_eq l 0
  simpa [wsum] using h

lemma resolveAll_none_iff (store : TypesA.OutPoint → Option TypesA.Output)
    (ops : List TypesA.OutPoint) :
    TypesA.resolveAll store ops = none ↔ ∃ op ∈ ops, store op = none := by
  induction ops with
  | nil => simp [TypesA.resolveAll]
  | cons op rest ih =>
    cases h : store op with
    | none => simp [TypesA.resolveAll, h]
    | some o =>
      cases h2 : TypesA.resolveAll store rest with
      | none =>
        simp only [TypesA.resolveAll, h, h2]
        constructor
        · intro _
          rcases ih.mp h2 with ⟨op', hm, hn⟩
          exact ⟨op', List.mem_cons_of_mem _ hm, hn⟩
        · intro _; trivial
      | some os =>
        simp only [TypesA.resolveAll, h, h2]
        constructor
        · intro hc; exact absurd hc (by simp)
        · rintro ⟨op', hmem, hnone⟩
          rcases List.mem_cons.mp hmem with rfl | hm
          · rw [h] at hnone; exact absurd hnone (by simp)
          · have hn : TypesA.resolveAll store rest = none := ih.mpr ⟨op', hm, hnone⟩
            rw [h2] at hn; exact absurd hn (by simp)

lemma zip_triples {α β γ : Type} (t : List (α × β × γ)) :
    (t.map Prod.fst).zip ((t.map fun x => x.2.1).zip (t.map fun x => x.2.2)) = t := by
  induction t with
  | nil => rfl
  | cons a rest ih => simp [ih]

lemma SM.insertAll_spec {κ : Type} [DecidableEq κ] (s : κ → Bool) (l : List κ)
    (k : κ) : SM.insertAll s l k = (s k || decide (k ∈ l)) := by
  induction l generalizing s with
  | nil => simp [SM.insertAll]
  | cons x xs ih =>
    show SM.insertAll (SM.setIn s x) xs k = _
    rw [ih]
    by_cases h : k = x <;> simp [SM.setIn, h]

lemma SM.removeAll_spec {κ : Type} [DecidableEq κ] (s : κ → Bool) (l : List κ)
    (k : κ) : SM.removeAll s l k = (s k && !decide (k ∈ l)) := by
  induction l generalizing s with
  | nil => simp [SM.removeAll]
  | cons x xs ih =>
    show SM.removeAll (SM.setOut s x) xs k = _
    rw [ih]
    by_cases h : k = x <;> simp [SM.setOut, h]

lemma SM.delAll_spec {κ ν : Type} [DecidableEq κ] (m : κ → Option ν)
    (l : List κ) (k : κ) :
    SM.delAll m l k = if k ∈ l then none else m k := by
  induction l generalizing m with
  | nil => simp [SM.delAll]
  | cons x xs ih =>
    show SM.delAll (SM.del m x) xs k = _
    rw [ih]
    by_cases h : k = x
    · subst h; simp [SM.del]
    · by_cases h2 : k ∈ xs <;> simp [SM.del, h, h2]

lemma SM.updFold_isSome {κ ν : Type} [DecidableEq κ] (l : List (κ × ν))
    (m : κ → Option ν) (k : κ) :
    ((l.foldl (fun m p => SM.upd m p.1 p.2) m) k).isSome =
      ((m k).isSome || decide (k ∈ l.map Prod.fst)) := by
  induction l generalizing m with
  | nil => simp
  | cons p rest ih =>
    show ((rest.foldl _ (SM.upd m p.1 p.2)) k).isSome = _
    rw [ih]
    by_cases h : k = p.1
    · simp [SM.upd, h]
    · have hb : (k == p.1) = false := beq_eq_false_iff_ne.mpr h
      simp [SM.upd, h, hb]

lemma SM.add_deposits_inv (S : SM.StateMachine)
    (ds : List ((Nat × Nat) × SM.DepositOutput))
    (h : SM.unspentSubStores S) :
    SM.unspentSubStores (SM.add_deposits S ds) := by
  intro op hop
  have hop' : S.unspent_outpoints op = true ∨
      op ∈ (ds.map fun p => (SM.OutPoint.Deposit p.1.1 p.1.2, p.2)).map Prod.fst := by
    have h0 := hop
    unfold SM.add_deposits at h0
    simp only [SM.insertAll_spec, Bool.or_eq_true, decide_eq_true_eq] at h0
    exact h0
  unfold SM.add_deposits SM.inStores
  simp only [SM.updFold_isSome, Bool.or_eq_true, decide_eq_true_eq]
  rcases hop' with h1 | h2
  · have h3 := h op h1
    unfold SM.inStores at h3
    simp only [Bool.or_eq_true] at h3
    tauto
  · tauto

lemma SM.inv_reg_fold (txid : Nat) (l : List (Nat × SM.Output))
    (S : SM.StateMachine) (h : SM.unspentSubStores S) :
    SM.unspentSubStores (l.foldl (fun T p =>
      { T with outputs := SM.upd T.outputs (SM.OutPoint.Regular txid p.1) p.2,
               unspent_outpoints :=
                 SM.setIn T.unspent_outpoints (SM.OutPoint.Regular txid p.1) }) S) := by
  induction l generalizing S with
  | nil => exact h
  | cons p rest ih =>
    apply ih
    intro op hop
    by_cases he : op = SM.OutPoint.Regular txid p.1
    · subst he; simp [SM.inStores, SM.upd]
    · have h1 : S.unspent_outpoints op = true := by
        simpa [SM.setIn, he] using hop
      have h2 := h op h1
      unfold SM.inStores at h2 ⊢
      simpa [SM.upd, he] using h2

lemma SM.inv_wdr_fold (txid : Nat) (l : List (Nat × SM.WithdrawalOutput))
    (S : SM.StateMachine) (h : SM.unspentSubStores S) :
    SM.unspentSubStores (l.foldl (fun T p =>
      { T with withdrawal_outputs :=
                 SM.upd T.withdrawal_outputs (SM.OutPoint.Withdrawal txid p.1) p.2,
               unspent_outpoints :=
                 SM.setIn T.unspent_outpoints (SM.OutPoint.Withdrawal txid p.1) }) S) := by
  induction l generalizing S with
  | nil => exact h
  | cons p rest ih =>
    apply ih
    intro op hop
    by_cases he : op = SM.OutPoint.Withdrawal txid p.1
    · subst he; simp [SM.inStores, SM.upd]
    · have h1 : S.unspent_outpoints op = true := by
        simpa [SM.setIn, he] using hop
      have h2 := h op h1
      unfold SM.inStores at h2 ⊢
      simpa [SM.upd, he] using h2

lemma SM.connectTx_inv (c : SM.Crypto) (header : SM.Header) (body : SM.Body)
    (S : SM.StateMachine) (tx : SM.Transaction) (h : SM.unspentSubStores S) :
    SM.unspentSubStores (SM.connectTx c header body S tx) := by
  have h1 : SM.unspentSubStores
      { S with transactions := SM.upd S.transactions (c.hashTx tx) tx,
               unspent_outpoints := SM.removeAll S.unspent_outpoints tx.inputs } := by
    intro op hop
    have h0 : S.unspent_outpoints op = true := by
      have hr := hop
      simp only [SM.removeAll_spec, Bool.and_eq_true] at hr
      exact hr.1
    exact h op h0
  have h2 := SM.inv_reg_fold (c.hashTx tx) tx.outputs.enum _ h1
  have h3 := SM.inv_wdr_fold (c.hashTx tx) tx.withdrawal_outputs.enum _ h2
  intro op hop
  exact h3 op hop

lemma SM.connect_list_inv (c : SM.Crypto) (header : SM.Header) (body : SM.Body) :
    ∀ (l : List SM.Transaction) (S : SM.StateMachine), SM.unspentSubStores S →
      SM.unspentSubStores (l.foldl (SM.connectTx c header body) S)
  | [], _, h => h
  | tx :: rest, S, h =>
    SM.connect_list_inv c header body rest _
      (SM.connectTx_inv c header body S tx h)

lemma SM.connect_block_inv (c : SM.Crypto) (S : SM.StateMachine)
    (header : SM.Header) (body : SM.Body) (h : SM.unspentSubStores S) :
    SM.unspentSubStores (SM.connect_block c S header body) :=
  SM.connect_list_inv c header body body.transactions S h

lemma SM.inStores_disconnectTx_eq (c : SM.Crypto) (S : SM.StateMachine)
    (tx : SM.Transaction) (op : SM.OutPoint) (hp : op ∉ SM.producedOf c tx) :
    SM.inStores (SM.disconnectTx c S tx) op = SM.inStores S op := by
  have hregs : op ∉ (List.range tx.outputs.length).map
      (SM.OutPoint.Regular (c.hashTx tx)) := by
    intro hm; exact hp (List.mem_append_left _ hm)
  have hwdrs : op ∉ (List.range tx.withdrawal_outputs.length).map
      (SM.OutPoint.Withdrawal (c.hashTx tx)) := by
    intro hm; exact hp (List.mem_append_right _ hm)
  unfold SM.inStores SM.disconnectTx
  simp only [SM.delAll_spec]
  rw [if_neg hregs, if_neg hwdrs]

lemma SM.disconnectTx_inv (c : SM.Crypto) (S : SM.StateMachine)
    (tx : SM.Transaction)
    (hins : ∀ op ∈ tx.inputs, SM.inStores S op = true)
    (h : SM.unspentSubStores S) :
    SM.unspentSubStores (SM.disconnectTx c S tx) := by
  intro op hop
  have hop' : (S.unspent_outpoints op = true ∨ op ∈ tx.inputs) ∧
      op ∉ (List.range tx.outputs.length).map (SM.OutPoint.Regular (c.hashTx tx)) ∧
      op ∉ (List.range tx.withdrawal_outputs.length).map
        (SM.OutPoint.Withdrawal (c.hashTx tx)) := by
    have h0 : SM.removeAll (SM.removeAll
        (SM.insertAll S.unspent_outpoints tx.inputs)
        ((List.range tx.outputs.length).map (SM.OutPoint.Regular (c.hashTx tx))))
        ((List.range tx.withdrawal_outputs.length).map
          (SM.OutPoint.Withdrawal (c.hashTx tx))) op = true := hop
    simp only [SM.removeAll_spec, SM.insertAll_spec, Bool.and_eq_true,
      Bool.or_eq_true, Bool.not_eq_true', decide_eq_false_iff_not,
      decide_eq_true_eq] at h0
    tauto
  obtain ⟨hsrc, hregs, hwdrs⟩ := hop'
  have hp : op ∉ SM.producedOf c tx := by
    intro hm
    rcases List.mem_append.mp hm with hm1 | hm2
    · exact hregs hm1
    · exact hwdrs hm2
  rw [SM.inStores_disconnectTx_eq c S tx op hp]
  rcases hsrc with h1 | h2
  · exact h op h1
  · exact hins op h2

lemma SM.disconnect_list_inv (c : SM.Crypto) :
    ∀ (l : List SM.Transaction) (S : SM.StateMachine),
      SM.unspentSubStores S →
      (∀ tx ∈ l, ∀ op ∈ tx.inputs, SM.inStores S op = true ∧
        (∀ tx' ∈ l, op ∉ SM.producedOf c tx')) →
      SM.unspentSubStores (l.foldl (SM.disconnectTx c) S) := by
  intro l
  induction l with
  | nil => intro S h _; exact h
  | cons tx rest ih =>
    intro S h hpre
    show SM.unspentSubStores (rest.foldl (SM.disconnectTx c) (SM.disconnectTx c S tx))
    apply ih
    · exact SM.disconnectTx_inv c S tx
        (fun op hop => (hpre tx (by simp) op hop).1) h
    · intro tx' htx' op hop
      obtain ⟨hst, hnp⟩ := hpre tx' (by simp [htx']) op hop
      refine ⟨?_, fun tx'' htx'' => hnp tx'' (by simp [htx''])⟩
      rw [SM.inStores_disconnectTx_eq c S tx op (hnp tx (by simp))]
      exact hst

lemma SM.disconnect_block_inv (c : SM.Crypto) (S : SM.StateMachine)
    (header : SM.Header) (body : SM.Body)
    (hpre : ∀ tx ∈ body.transactions, ∀ op ∈ tx.inputs,
      SM.inStores S op = true ∧ op ∉ SM.producedOutpoints c body)
    (h : SM.unspentSubStores S) :
    SM.unspentSubStores (SM.disconnect_block c S header body) := by
  have h1 := SM.disconnect_list_inv c body.transactions S h ?pre
  case pre =>
    intro tx htx op hop
    obtain ⟨hst, hnp⟩ := hpre tx htx op hop
    refine ⟨hst, fun tx' htx' hmem => ?_⟩
    exact hnp (by
      unfold SM.producedOutpoints
      rw [List.mem_flatMap]
      exact ⟨tx', htx', hmem⟩)
  intro op hop
  exact h1 op hop

/-!
## Claim theorems
-/

/-- C1.  The claim that connect-then-disconnect restores the prior state is
refuted by the code: `connect_block` appends the block hash to
`block_order` once *per transaction* (the bookkeeping sits inside the
per-transaction loop), while `disconnect_block` pops exactly once.  On the
state `S0` (one committed block) and the valid two-transaction block
`(h2T, b2T)`, the round trip leaves `block_order = [1, 9]` instead of
`[1]`; on the valid empty block `(hE, bE)`, `connect_block` records nothing
at all and the subsequent `disconnect_block` pops the *pre-existing* tip,
leaving `block_order = []`. -/
theorem connect_disconnect_roundtrip_fails :
    (SM.validate_block cT S0 h2T b2T = true ∧
     S0.block_order = [1] ∧
     (SM.connect_block cT S0 h2T b2T).block_order = [1, 9, 9] ∧
     (SM.disconnect_block cT (SM.connect_block cT S0 h2T b2T) h2T b2T).block_order
       = [1, 9]) ∧
    (SM.validate_block cT S0 hE bE = true ∧
     (SM.connect_block cT S0 hE bE).block_order = [1] ∧
     (SM.disconnect_block cT (SM.connect_block cT S0 hE bE) hE bE).block_order
       = []) := by
  decide

/-- C2 counterexample.  `Transaction::txid` hashes the `bincode`
serialization of the *whole* transaction, authorizations included: for the
concrete transaction `txC2` (one authorization), the serialized bytes differ
from those of its authorization-free image, so any digest separating the
two byte strings — here the identity instantiation `idH` — yields
`txid(tx) ≠ txid(tx without authorizations)`, refuting the claim that the
two always coincide. -/
theorem txid_covers_authorizations :
    TypesA.Transaction.ser txC2 ≠ TypesA.Transaction.ser txC2.without_authorizations ∧
    TypesA.Transaction.txid idH txC2 ≠
      TypesA.Transaction.txid idH txC2.without_authorizations := by
  constructor <;> decide

/-- C2 amended.  What is invariant under mutation of the `authorizations`
field is the *signing-image* hash actually used by validation and signing,
`tx.without_authorizations().txid()`: for every digest `H`, every
transaction and every replacement authorization list, the txid of the
authorization-cleared image is unchanged. -/
theorem signing_image_ignores_authorizations (H : List Nat → TypesA.Hash)
    (tx : TypesA.Transaction) (auths : List TypesA.Authorization) :
    ((tx.setAuthorizations auths).without_authorizations).txid H =
      (tx.without_authorizations).txid H := rfl

/-- C3.  Neither validation scope detects double spends: (a)
`Transaction::validate` accepts `txDup`, which names the same unspent
outpoint twice (and, because the duplicated input is resolved twice, mints
value 20 out of a value-10 output); (b) `Body::validate` accepts `body3`,
whose two transactions both spend the same pre-existing outpoint `opA`.
The claim that both are rejected is refuted at these inputs. -/
theorem double_spends_not_detected :
    (txDup.inputs = [opA, opA] ∧
     TypesA.Transaction.validate idH sigTrue (fun _ => false) storeA txDup = .ok ()) ∧
    (tx31.inputs = [opA] ∧ tx32.inputs = [opA] ∧
     TypesA.Body.validate idH sigTrue (fun _ => false) storeA body3 = true) := by
  decide

/-- C4.  Arithmetic in validation wraps silently instead of being rejected:
(a) `Transaction::validate` accepts `txOv`, whose two output values truly
sum to `2 ^ 64` (wrapping the summed `value_out` to 0) against a spent
input worth 1; (b) `Validator::validate_body` accepts `bodyOv`, whose two
transactions each pay a fee of `2 ^ 63`, the accumulated fees wrapping to
0 — no `FeeOverflow` error exists anywhere in the crate.  (Release-profile
wrapping semantics; the debug profile panics rather than returning an
error.) -/
theorem overflow_not_rejected :
    ((txOv.outputs.map TypesA.Output.get_value).sum = 2 ^ 64 ∧
     storeOv opA = some (.Regular (TypesA.bytes32 1) 1) ∧
     TypesA.Transaction.validate idH sigTrue (fun _ => false) storeOv txOv = .ok ()) ∧
    (Val.validate_transaction cvalOk (fun _ => 0) [uIn] txF = .ok (2 ^ 63) ∧
     Val.validate_body cvalOk (fun _ => 0) [[uIn], [uIn]] bodyOv = .ok 0) := by
  decide

/-- C5 counterexample.  `StateMachine::validate_block` performs no
body-level coinbase-versus-fees check: the block `(h5, b5)`, whose coinbase
pays 5 while its (empty) transaction list yields fees 0, is accepted
against the empty state, refuting the claimed four-condition
characterization. -/
theorem validate_block_skips_coinbase_check :
    SM.validate_block cT SM.new h5 b5 = true ∧
    b5.transactions = [] ∧
    wsum (b5.coinbase.map SM.Output.value) = 5 := by
  decide

/-- C5 amended.  `StateMachine::validate_block` accepts a block iff exactly
three conditions hold: the header's previous block hash equals the best
block hash (or zero for an empty chain), the header's Merkle root equals
the recomputed body commitment, and every transaction of the body passes
`validate_transaction` (which checks value conservation, spentness,
per-signature validity and address ownership over the zipped
input/signature pairs).  No coinbase-versus-fees check and no separate
batch signature pass are performed. -/
theorem validate_block_characterization (c : SM.Crypto) (S : SM.StateMachine)
    (header : SM.Header) (body : SM.Body) :
    SM.validate_block c S header body = true ↔
      (header.prev_block_hash = (SM.get_best_block_hash S).getD 0 ∧
       header.merkle_root = c.merkleOf body ∧
       ∀ tx ∈ body.transactions, SM.validate_transaction c S tx = .ok ()) := by
  unfold SM.validate_block
  by_cases h1 : header.prev_block_hash = (SM.get_best_block_hash S).getD 0
  · by_cases h2 : header.merkle_root = c.merkleOf body
    · simp only [h1, h2]
      simp [List.all_eq_true, exceptIsOk_iff]
    · simp [h1, h2]
  · simp [h1]

/-- C6.  The per-signature and batch verification passes do *not* accept
the same inputs, because `AuthorizationValidator::verify_signatures`
rebinds the transaction to its clone with `authorizations` cleared and then
iterates the authorizations of that cleared clone — verifying nothing and
accepting every input (first conjunct).  The batch pass of
`dalek_authorization::verify_signatures` is faithful: it succeeds iff every
authorization of every transaction verifies against the digest of that
transaction with authorizations cleared (second conjunct).  The two passes
disagree at the concrete input `[txAuth]` under the all-rejecting verifier
(third and fourth conjuncts). -/
theorem per_signature_verifier_vacuous :
    (∀ (sigValid : Nat → Nat → List Nat → Bool) (H : Val.Transaction → List Nat)
       (txs : List Val.Transaction),
       Val.authorizationValidatorVerify sigValid H txs = .ok ()) ∧
    (∀ (sigValid : Nat → Nat → List Nat → Bool) (H : Val.Transaction → List Nat)
       (txs : List Val.Transaction),
       Dalek.verify_signatures sigValid H txs = .ok () ↔
         ∀ tx ∈ txs, ∀ a ∈ tx.authorizations,
           sigValid a.public_key a.signature (H tx.clearAuths) = true) ∧
    Dalek.verify_signatures sigFalse HconstV [txAuth] = .error () ∧
    Val.authorizationValidatorVerify sigFalse HconstV [txAuth] = .ok () := by
  refine ⟨?_, ?_, by decide, by decide⟩
  · intro sigValid H txs
    induction txs with
    | nil => rfl
    | cons tx rest ih =>
      simpa [Val.authorizationValidatorVerify, Val.avVerifyTx,
        Val.Transaction.clearAuths, Val.checkAuths] using ih
  · intro sigValid H txs
    simp only [Dalek.verify_signatures, Dalek.verify_batch, zip_triples]
    by_cases hb : ((Dalek.batchTriples H txs).all fun t => sigValid t.2.2 t.2.1 t.1) = true
    · rw [hb]
      simp only [if_pos rfl]
      rw [List.all_eq_true] at hb
      simp only [Dalek.batchTriples, List.mem_flatMap, List.mem_map] at hb
      constructor
      · intro _ tx htx a ha
        exact hb _ ⟨tx, htx, a, ha, rfl⟩
      · intro _; rfl
    · rw [if_neg hb]
      constructor
      · intro hc; exact absurd hc (by simp)
      · intro hall
        exfalso
        apply hb
        rw [List.all_eq_true]
        intro t ht
        simp only [Dalek.batchTriples, List.mem_flatMap, List.mem_map] at ht
        rcases ht with ⟨tx, htx, a, ha, rfl⟩
        exact hall tx htx a ha

/-- C7 counterexample.  `StateMachine::validate_transaction` reports
"output spent" — not "output doesn't exist" — for an input outpoint that
never existed: in the empty state, every store is empty at `op7`, yet the
reported error is the known-but-spent one, because the unspent-set check
runs before any store lookup. -/
theorem never_existed_input_reported_spent :
    SM.new.outputs op7 = none ∧ SM.new.deposit_outputs op7 = none ∧
    SM.new.withdrawal_outputs op7 = none ∧
    SM.validate_transaction cT SM.new tx7 = .error ("output spent") := by
  decide

/-- C7 amended.  For any state and any transaction whose value check
passes, if the first zipped input/signature pair names an outpoint absent
from the unspent set, `validate_transaction` reports "output spent" —
regardless of whether the outpoint ever existed; the "output doesn't
exist" error can only arise for an outpoint that is *in* the unspent set
but absent from all three output stores. -/
theorem unspent_check_precedes_existence (c : SM.Crypto) (S : SM.StateMachine)
    (tx : SM.Transaction) (op : SM.OutPoint) (ops : List SM.OutPoint)
    (sig : SM.Signature) (sigs : List SM.Signature)
    (hin : tx.inputs = op :: ops) (hsig : tx.signatures = sig :: sigs)
    (hval : SM.valueCheck S tx = false)
    (hunsp : S.unspent_outpoints op = false) :
    SM.validate_transaction c S tx = .error ("output spent") := by
  unfold SM.validate_transaction
  rw [hval, hin, hsig]
  simp [SM.validateInputsSM, SM.is_spent, hunsp]

/-- C7 witness: the amended theorem applied to the never-created coinbase
outpoint spent by `tx7w` in the empty state. -/
theorem unspent_check_precedes_existence_witness :
    tx7w.inputs = [.Coinbase 5 1] ∧ tx7w.signatures = [⟨0, 0⟩] ∧
    SM.valueCheck SM.new tx7w = false ∧
    SM.new.unspent_outpoints (.Coinbase 5 1) = false ∧
    SM.validate_transaction cT SM.new tx7w = .error ("output spent") :=
  ⟨rfl, rfl, by decide, rfl,
   unspent_check_precedes_existence cT SM.new tx7w (.Coinbase 5 1) [] ⟨0, 0⟩ []
     rfl rfl (by decide) rfl⟩

/-- C8.  Given that the per-transaction phase of
`Validator::validate_body` succeeds with accumulated fees `fees`, the body
is accepted (returning `fees`) iff the summed coinbase value does not
exceed `fees`: a strictly greater coinbase is rejected with the
coinbase-exceeds-fees error, equality is accepted, and a smaller coinbase
is accepted (the excess is burned). -/
theorem validate_body_coinbase_fee_gate
    (cval : List Val.Output → Val.Transaction → Except String Unit)
    (A : Nat → Nat) (spent : List (List Val.Output)) (body : Val.Body)
    (fees : Nat)
    (h : Val.sumFees cval A (body.transactions.zip spent) 0 = .ok fees) :
    (body.get_coinbase_value ≤ fees →
      Val.validate_body cval A spent body = .ok fees) ∧
    (body.get_coinbase_value > fees →
      Val.validate_body cval A spent body = .error ("coinbase value > fees")) := by
  unfold Val.validate_body
  rw [h]
  constructor
  · intro hle
    show (if body.get_coinbase_value > fees then
      Except.error ("coinbase value > fees") else Except.ok fees) = Except.ok fees
    rw [if_neg (by omega)]
  · intro hgt
    show (if body.get_coinbase_value > fees then
        Except.error ("coinbase value > fees") else Except.ok fees) =
      Except.error ("coinbase value > fees")
    rw [if_pos hgt]

/-- C8 witness: `body8` pays its entire fee of 1 to the coinbase (the
equality case) and is accepted. -/
theorem validate_body_coinbase_fee_gate_witness :
    Val.sumFees cvalOk (fun _ => 0) (body8.transactions.zip spent8) 0 = .ok 1 ∧
    Val.Body.get_coinbase_value body8 ≤ 1 ∧
    Val.validate_body cvalOk (fun _ => 0) spent8 body8 = .ok 1 :=
  ⟨by decide, by decide,
   (validate_body_coinbase_fee_gate cvalOk (fun _ => 0) spent8 body8 1
     (by decide)).1 (by decide)⟩

/-- C9 counterexample.  After ingesting a single main-chain deposit into
the empty state, the deposit outpoint is unspent but is *not* a key of the
`outputs` map (it lives only in `deposit_outputs`), refuting the claim
that `unspent ⊆ keys(outputs)`. -/
theorem deposit_not_in_outputs_map :
    dep9.unspent_outpoints (.Deposit 1 2) = true ∧
    dep9.outputs (.Deposit 1 2) = none := by
  decide

/-- C9 amended.  Every outpoint in the unspent set is a key of one of the
three output stores (`outputs`, `deposit_outputs`, `withdrawal_outputs`),
in every state reachable from the empty state machine by `add_deposits`,
`connect_block`, and `disconnect_block` of blocks whose transaction inputs
all resolve in the stores and are distinct from the block's own produced
outpoints. -/
theorem unspent_subset_stores (c : SM.Crypto) (S : SM.StateMachine)
    (h : SM.Reach c S) : SM.unspentSubStores S := by
  induction h with
  | init => intro op hop; exact absurd hop (by simp [SM.new])
  | deposits ds _ ih => exact SM.add_deposits_inv _ ds ih
  | connect header body _ ih => exact SM.connect_block_inv c _ header body ih
  | disconnect header body _ hpre ih =>
    exact SM.disconnect_block_inv c _ header body hpre ih

/-- C9 witness: the invariant at the reachable state obtained by ingesting
one deposit into the empty state. -/
theorem unspent_subset_stores_witness :
    SM.unspentSubStores (SM.add_deposits SM.new [((3, 4), ⟨1, 7⟩)]) :=
  unspent_subset_stores cT _ (SM.Reach.deposits _ SM.Reach.init)

/-- C10.  `Transaction::get_fee` returns `none` exactly when at least one
input outpoint is absent from the output store; when every input resolves,
it returns `some f` with `f < 2 ^ 64` and `f` congruent to
(Σ input values − Σ output values) modulo `2 ^ 64` — in particular no check
that the inputs cover the outputs is performed. -/
theorem get_fee_characterization (store : TypesA.OutPoint → Option TypesA.Output)
    (tx : TypesA.Transaction) :
    (TypesA.Transaction.get_fee store tx = none ↔
      ∃ op ∈ tx.inputs, store op = none) ∧
    (∀ ins, TypesA.Transaction.get_inputs store tx = some ins →
      ∃ f, TypesA.Transaction.get_fee store tx = some f ∧ f < U64MOD ∧
        (f : ℤ) = ((ins.map TypesA.Output.get_value).sum -
          ((tx.outputs.map TypesA.Output.get_value).sum : ℤ)) % (U64MOD : ℤ)) := by
  constructor
  · rw [← resolveAll_none_iff store tx.inputs]
    unfold TypesA.Transaction.get_fee TypesA.Transaction.get_inputs
    cases h : TypesA.resolveAll store tx.inputs <;> simp [h]
  · intro ins h
    unfold TypesA.Transaction.get_fee
    rw [h]
    refine ⟨_, rfl, Nat.mod_lt _ (by norm_num [U64MOD]), ?_⟩
    rw [wsum_eq, wsum_eq, wsub]
    set A := (ins.map TypesA.Output.get_value).sum with hA
    set B := (tx.outputs.map TypesA.Output.get_value).sum with hB
    have hBle : B % U64MOD ≤ A % U64MOD + U64MOD :=
      le_trans (le_of_lt (Nat.mod_lt _ (by norm_num [U64MOD]))) (by omega)
    push_cast [Nat.cast_sub hBle]
    have hM : ((U64MOD : ℤ)) = 2 ^ 64 := by norm_num [U64MOD]
    rw [hM]
    omega

/-- C10 witness: the characterization applied to the fully-resolving
store/transaction pair `store10` / `tx10` (fee 5 = 7 − 2). -/
theorem get_fee_characterization_witness :
    ∃ f, TypesA.Transaction.get_fee store10 tx10 = some f ∧ f < U64MOD ∧
      (f : ℤ) = (((([.Regular (TypesA.bytes32 1) 7] :
          List TypesA.Output).map TypesA.Output.get_value).sum) -
        ((tx10.outputs.map TypesA.Output.get_value).sum : ℤ)) % (U64MOD : ℤ) :=
  (get_fee_characterization store10 tx10).2 [.Regular (TypesA.bytes32 1) 7]
    (by decide)
